import Mathlib

/-!
Verification of the geometric/projection core of the medical-3d-imaging-viewer
repository (backend/app/core: coordinate.py, camera.py, carm.py, dicom.py).

The Python source is shallowly embedded:
* numpy float arrays become exact vectors/matrices over `ℚ` (`Fin n → ℚ`,
  `Matrix (Fin 3) (Fin 3) ℚ`); all the code under scrutiny is plain rational
  arithmetic on array entries apart from the trigonometric functions, which are
  handled by carrying the cosine/sine of each angle symbolically (see `CArm`).
* fallible Python code (raising exceptions) becomes `Except PyError`.
* `np.linalg.inv` on an invertible 3x3 matrix is the exact inverse `inv3`.
-/

/-- Python exceptions raised by the embedded code paths. -/
inductive PyError where
  | valueError (msg : String)
  | attributeError (msg : String)
  | typeError (msg : String)
  | indexError
  | assertionError
  deriving DecidableEq, Repr

instance exceptDecEq {ε α : Type} [DecidableEq ε] [DecidableEq α] :
    DecidableEq (Except ε α) := fun x y =>
  match x, y with
  | .ok a, .ok b =>
      if h : a = b then .isTrue (by rw [h])
      else .isFalse (fun hc => h (Except.ok.inj hc))
  | .error e, .error f =>
      if h : e = f then .isTrue (by rw [h])
      else .isFalse (fun hc => h (Except.error.inj hc))
  | .ok _, .error _ => .isFalse (fun hc => Except.noConfusion hc)
  | .error _, .ok _ => .isFalse (fun hc => Except.noConfusion hc)

abbrev Vec2 := Fin 2 → ℚ
abbrev Vec3 := Fin 3 → ℚ
abbrev Mat3 := Matrix (Fin 3) (Fin 3) ℚ

/-- Determinant of a 3x3 rational matrix, by cofactor expansion. -/
def det3 (A : Mat3) : ℚ :=
  A 0 0 * (A 1 1 * A 2 2 - A 1 2 * A 2 1)
    - A 0 1 * (A 1 0 * A 2 2 - A 1 2 * A 2 0)
    + A 0 2 * (A 1 0 * A 2 1 - A 1 1 * A 2 0)

/-- Adjugate (transposed cofactor matrix) of a 3x3 rational matrix. -/
def adj3 (A : Mat3) : Mat3 :=
  !![A 1 1 * A 2 2 - A 1 2 * A 2 1, -(A 0 1 * A 2 2 - A 0 2 * A 2 1),
       A 0 1 * A 1 2 - A 0 2 * A 1 1;
     -(A 1 0 * A 2 2 - A 1 2 * A 2 0), A 0 0 * A 2 2 - A 0 2 * A 2 0,
       -(A 0 0 * A 1 2 - A 0 2 * A 1 0);
     A 1 0 * A 2 1 - A 1 1 * A 2 0, -(A 0 0 * A 2 1 - A 0 1 * A 2 0),
       A 0 0 * A 1 1 - A 0 1 * A 1 0]

/-- Exact 3x3 inverse; models `np.linalg.inv` on an invertible matrix. -/
def inv3 (A : Mat3) : Mat3 := (det3 A)⁻¹ • adj3 A

theorem adj3_mul (A : Mat3) : adj3 A * A = det3 A • (1 : Mat3) := by
  ext i j
  fin_cases i <;> fin_cases j <;>
    simp [adj3, det3, Matrix.mul_apply, Fin.sum_univ_three, Matrix.one_apply] <;> ring

theorem mul_adj3 (A : Mat3) : A * adj3 A = det3 A • (1 : Mat3) := by
  ext i j
  fin_cases i <;> fin_cases j <;>
    simp [adj3, det3, Matrix.mul_apply, Fin.sum_univ_three, Matrix.one_apply] <;> ring

theorem inv3_mul {A : Mat3} (h : det3 A ≠ 0) : inv3 A * A = 1 := by
  rw [inv3, Matrix.smul_mul, adj3_mul, smul_smul, inv_mul_cancel₀ h, one_smul]

theorem mul_inv3 {A : Mat3} (h : det3 A ≠ 0) : A * inv3 A = 1 := by
  rw [inv3, Matrix.mul_smul, mul_adj3, smul_smul, inv_mul_cancel₀ h, one_smul]

theorem det3_mul (A B : Mat3) : det3 (A * B) = det3 A * det3 B := by
  simp only [det3, Matrix.mul_apply, Fin.sum_univ_three]
  ring

/-! ## coordinate.py -/

/-- `CoordinateSystem` enum from coordinate.py. -/
inductive CoordinateSystem where
  | LPS
  | RAS
  | ILA
  deriving DecidableEq, Repr, Fintype

/-- `PatientPosition` enum from coordinate.py. -/
inductive PatientPosition where
  | HFS
  | FFS
  deriving DecidableEq, Repr, Fintype

namespace TransformationMatrix

/-- The `COORDINATE_TRANSFORM` nested dictionary of `TransformationMatrix`,
as a partial lookup on ordered pairs of coordinate systems. -/
def COORDINATE_TRANSFORM : CoordinateSystem → CoordinateSystem → Option Mat3
  | .RAS, .LPS => some !![-1, 0, 0; 0, -1, 0; 0, 0, 1]
  | .RAS, .ILA => some !![-0, 0, -1; -1, 0, 0; 0, 1, 0]
  | .LPS, .RAS => some !![-1, 0, 0; 0, -1, 0; 0, 0, 1]
  | .LPS, .ILA => some !![0, 0, -1; 1, 0, 0; 0, -1, 0]
  | .ILA, .LPS => some !![0, 1, 0; 0, 0, -1; -1, 0, 0]
  | .ILA, .RAS => some !![0, -1, 0; 0, 0, 1; -1, 0, 0]
  | _, _ => none

/-- The `POSITION_TRANSFORM` nested dictionary of `TransformationMatrix`. -/
def POSITION_TRANSFORM : PatientPosition → PatientPosition → Option Mat3
  | .HFS, .FFS => some !![-1, 0, 0; 0, 1, 0; 0, 0, -1]
  | .FFS, .HFS => some !![-1, 0, 0; 0, 1, 0; 0, 0, -1]
  | _, _ => none

/-- `TransformationMatrix.get_coordinate_transform_matrix`: identity when the
two systems coincide, dictionary lookup otherwise, `ValueError` when the pair
has no direct entry. -/
def get_coordinate_transform_matrix (from_cs to_cs : CoordinateSystem) :
    Except PyError Mat3 :=
  if from_cs = to_cs then .ok 1
  else
    match COORDINATE_TRANSFORM from_cs to_cs with
    | some m => .ok m
    | none => .error (.valueError "No direct transformation")

/-- `TransformationMatrix.get_position_transform_matrix`. -/
def get_position_transform_matrix (from_pos to_pos : PatientPosition) :
    Except PyError Mat3 :=
  if from_pos = to_pos then .ok 1
  else
    match POSITION_TRANSFORM from_pos to_pos with
    | some m => .ok m
    | none => .error (.valueError "No direct transformation")

end TransformationMatrix

/-- Claim C3: every ordered pair of distinct coordinate systems has a stored
direct transform; for each such pair the stored matrices satisfy
`M(A,B) * M(B,A) = 1` and `M(A,B) = M(B,A)ᵀ`; `transform(A,A) = 1`; the same
holds for the patient-position table; and the stored matrices are exactly the
signed-permutation constants listed in the spec (`-0` in the source equals
`0`, so `RAS→ILA` is `[[0,0,-1],[-1,0,0],[0,1,0]]`, and `HFS↔FFS` is
`diag(-1,1,-1)`). -/
theorem C3_transform_table_inverse_transpose :
    (∀ a : CoordinateSystem,
        TransformationMatrix.get_coordinate_transform_matrix a a = .ok 1) ∧
    (∀ a b : CoordinateSystem, a ≠ b →
        (TransformationMatrix.COORDINATE_TRANSFORM a b).isSome ∧
        ((TransformationMatrix.COORDINATE_TRANSFORM a b).getD 1) *
            ((TransformationMatrix.COORDINATE_TRANSFORM b a).getD 1) = 1 ∧
        ((TransformationMatrix.COORDINATE_TRANSFORM a b).getD 1) =
            ((TransformationMatrix.COORDINATE_TRANSFORM b a).getD 1).transpose) ∧
    (∀ p : PatientPosition,
        TransformationMatrix.get_position_transform_matrix p p = .ok 1) ∧
    (∀ p q : PatientPosition, p ≠ q →
        (TransformationMatrix.POSITION_TRANSFORM p q).isSome ∧
        ((TransformationMatrix.POSITION_TRANSFORM p q).getD 1) *
            ((TransformationMatrix.POSITION_TRANSFORM q p).getD 1) = 1 ∧
        ((TransformationMatrix.POSITION_TRANSFORM p q).getD 1) =
            ((TransformationMatrix.POSITION_TRANSFORM q p).getD 1).transpose) ∧
    TransformationMatrix.COORDINATE_TRANSFORM .RAS .LPS =
      some !![-1, 0, 0; 0, -1, 0; 0, 0, 1] ∧
    TransformationMatrix.COORDINATE_TRANSFORM .RAS .ILA =
      some !![0, 0, -1; -1, 0, 0; 0, 1, 0] ∧
    TransformationMatrix.COORDINATE_TRANSFORM .LPS .RAS =
      some !![-1, 0, 0; 0, -1, 0; 0, 0, 1] ∧
    TransformationMatrix.COORDINATE_TRANSFORM .LPS .ILA =
      some !![0, 0, -1; 1, 0, 0; 0, -1, 0] ∧
    TransformationMatrix.COORDINATE_TRANSFORM .ILA .LPS =
      some !![0, 1, 0; 0, 0, -1; -1, 0, 0] ∧
    TransformationMatrix.COORDINATE_TRANSFORM .ILA .RAS =
      some !![0, -1, 0; 0, 0, 1; -1, 0, 0] ∧
    TransformationMatrix.POSITION_TRANSFORM .HFS .FFS =
      some !![-1, 0, 0; 0, 1, 0; 0, 0, -1] ∧
    TransformationMatrix.POSITION_TRANSFORM .FFS .HFS =
      some !![-1, 0, 0; 0, 1, 0; 0, 0, -1] := by
  refine ⟨?_, ?_, ?_, ?_, ?_, ?_, ?_, ?_, ?_, ?_, ?_, ?_⟩ <;>
    with_unfolding_all decide

/-- Witness for C3: the hypotheses `a ≠ b` and `p ≠ q` are satisfiable; the
pair (RAS, ILA) and the pair (HFS, FFS) instantiate them. -/
theorem C3_transform_table_inverse_transpose_witness :
    (TransformationMatrix.COORDINATE_TRANSFORM .RAS .ILA).isSome ∧
    ((TransformationMatrix.COORDINATE_TRANSFORM .RAS .ILA).getD 1) *
        ((TransformationMatrix.COORDINATE_TRANSFORM .ILA .RAS).getD 1) = 1 ∧
    (TransformationMatrix.POSITION_TRANSFORM .HFS .FFS).isSome :=
  ⟨(C3_transform_table_inverse_transpose.2.1 .RAS .ILA (by with_unfolding_all decide)).1,
   (C3_transform_table_inverse_transpose.2.1 .RAS .ILA (by with_unfolding_all decide)).2.1,
   (C3_transform_table_inverse_transpose.2.2.2.1 .HFS .FFS (by with_unfolding_all decide)).1⟩

/-! ## camera.py -/

/-- `create_intrinsic_matrix(focal_length, pixel_spacing, principal_pt)`:
upper-triangular pinhole intrinsic matrix with focal length over pixel
spacing on the diagonal and the principal point in the last column. -/
def create_intrinsic_matrix (focal_length : ℚ) (pixel_spacing : Vec2)
    (principal_pt : Vec2) : Mat3 :=
  !![focal_length / pixel_spacing 0, 0, principal_pt 0;
     0, focal_length / pixel_spacing 1, principal_pt 1;
     0, 0, 1]

/-- `world_to_camera(x_world, camera_origin_world, rotation)` in the ndarray
branch: `(R @ (X - T).T).T`, i.e. each row `x` becomes `R @ (x - T)`.
An (n,3) numpy array is a list of its rows. -/
def world_to_camera (x_world : List Vec3) (camera_origin_world : Vec3)
    (rotation_camera_to_world : Mat3) : List Vec3 :=
  x_world.map (fun x => rotation_camera_to_world.mulVec (x - camera_origin_world))

/-- `camera_to_world(x_camera, camera_origin_world, rotation)` in the ndarray
branch: each row `x` becomes `R @ x + T`. -/
def camera_to_world (x_camera : List Vec3) (camera_origin_world : Vec3)
    (rotation_world_to_camera : Mat3) : List Vec3 :=
  x_camera.map (fun x => rotation_world_to_camera.mulVec x + camera_origin_world)

/-- `camera_to_image(x_camera, K)`: perspective division `(K @ x) / z` keeping
the first two components, with `z` the last camera coordinate. -/
def camera_to_image (x_camera : List Vec3) (intrinsic_matrix : Mat3) : List Vec2 :=
  x_camera.map (fun x =>
    ![intrinsic_matrix.mulVec x 0 / x 2, intrinsic_matrix.mulVec x 1 / x 2])

/-- `to_homogeneous` on a single image point. -/
def to_homogeneous (p : Vec2) : Vec3 := ![p 0, p 1, 1]

/-- `image_to_camera(x_image, K, z)` with a depth `z` supplied (the only call
in carm.py passes `z = sid`): each point becomes `z * (K⁻¹ @ homogeneous(p))`. -/
def image_to_camera (x_image : List Vec2) (intrinsic_matrix : Mat3) (z : ℚ) :
    List Vec3 :=
  x_image.map (fun p => z • (inv3 intrinsic_matrix).mulVec (to_homogeneous p))

/-- The `(3N) x (4+N)` matrix `M` assembled by `triangulate_multi_views`:
rows `3i..3i+2` hold the i-th projection matrix in the first four columns and
`-to_homogeneous(pts[i])` in column `4+i`; everything else is zero. -/
def triangulation_system (Ps : List (Matrix (Fin 3) (Fin 4) ℚ))
    (pts : List Vec2) : Matrix (Fin (3 * Ps.length)) (Fin (4 + Ps.length)) ℚ :=
  Matrix.of fun r c =>
    if hc : (c : ℕ) < 4 then
      Ps.getD ((r : ℕ) / 3) 0 ⟨(r : ℕ) % 3, Nat.mod_lt _ (by omega)⟩ ⟨c, hc⟩
    else if (c : ℕ) = 4 + (r : ℕ) / 3 then
      -(to_homogeneous (pts.getD ((r : ℕ) / 3) 0) ⟨(r : ℕ) % 3, Nat.mod_lt _ (by omega)⟩)
    else 0

/-- `triangulate_multi_views(projection_matrices, pts)`.  The only check in
the source is `assert len(projection_matrices) == len(pts)`; afterwards the
homogeneous system is built and handed to `np.linalg.svd`, whose numerically
computed last right-singular row is abstracted here as the parameter
`svd_solver` (floating-point SVD output is not exactly representable; the
control flow around it is).  The result is `(X / X[3])[:3]` for
`X = V[-1,:4]`. -/
def triangulate_multi_views
    (svd_solver : (m k : ℕ) → Matrix (Fin m) (Fin k) ℚ → (Fin k → ℚ))
    (projection_matrices : List (Matrix (Fin 3) (Fin 4) ℚ))
    (pts : List Vec2) : Except PyError Vec3 :=
  if projection_matrices.length = pts.length then
    let n := projection_matrices.length
    let V := svd_solver (3 * n) (4 + n) (triangulation_system projection_matrices pts)
    let X : Fin 4 → ℚ := fun i => V (Fin.castLE (by omega) i)
    .ok fun i : Fin 3 => X i.castSucc / X 3
  else .error .assertionError

/-! ## carm.py -/

/-- Rotation about the x-axis with given cosine and sine. -/
def rotAboutX (c s : ℚ) : Mat3 := !![1, 0, 0; 0, c, -s; 0, s, c]

/-- Rotation about the y-axis with given cosine and sine. -/
def rotAboutY (c s : ℚ) : Mat3 := !![c, 0, s; 0, 1, 0; -s, 0, c]

/-- `Rotation.from_euler("xyz", angles=[-alpha, -beta, 0], degrees=True)
.as_matrix()`: extrinsic x-then-y-then-z rotations, i.e.
`Rz(0) @ Ry(-beta) @ Rx(-alpha)`.  The angles enter only through their
cosine and sine, which are carried symbolically (`cos(-t) = cos t`,
`sin(-t) = -sin t`); the degree-to-radian conversion is absorbed by this
representation. -/
def euler_xyz_neg (cosAlpha sinAlpha cosBeta sinBeta : ℚ) : Mat3 :=
  rotAboutY cosBeta (-sinBeta) * rotAboutX cosAlpha (-sinAlpha)

/-- State of a `CArm` after `__init__` (which calls `initialize()` and
`rotate(alpha, beta)`).  The angles `alpha`, `beta` are represented by their
cosine/sine pairs (see `euler_xyz_neg`); all other fields are the stored
attributes. -/
structure CArm where
  cosAlpha : ℚ
  sinAlpha : ℚ
  cosBeta : ℚ
  sinBeta : ℚ
  sid : ℚ
  sod : ℚ
  sisod : ℚ
  imager_pixel_spacing : Vec2
  rows : ℕ
  columns : ℕ
  table_top_position : Vec3
  deriving DecidableEq

/-- `CArm.__init__`: stores the parameters, defaulting `sisod` to `sod` when
it is `None`. -/
def CArm.make (cosAlpha sinAlpha cosBeta sinBeta sid sod : ℚ)
    (imager_pixel_spacing : Vec2) (rows columns : ℕ)
    (table_top_position : Vec3) (sisod : Option ℚ) : CArm :=
  { cosAlpha := cosAlpha, sinAlpha := sinAlpha
    cosBeta := cosBeta, sinBeta := sinBeta
    sid := sid, sod := sod, sisod := sisod.getD sod
    imager_pixel_spacing := imager_pixel_spacing
    rows := rows, columns := columns
    table_top_position := table_top_position }

/-- `init_source_basis_vector_x` set by `initialize()`. -/
def init_source_basis_vector_x : Vec3 := ![1, 0, 0]

/-- `init_source_basis_vector_y` set by `initialize()`. -/
def init_source_basis_vector_y : Vec3 := ![0, 1, 0]

/-- `init_source_basis_vector_z` set by `initialize()`. -/
def init_source_basis_vector_z : Vec3 := ![0, 0, 1]

/-- `init_source_pt = -init_source_basis_vector_z * sisod`. -/
def CArm.init_source_pt (c : CArm) : Vec3 :=
  fun i => -init_source_basis_vector_z i * c.sisod

/-- `detector_center_pt_2d = [(columns - 1) / 2, (rows - 1) / 2]`. -/
def CArm.detector_center_pt_2d (c : CArm) : Vec2 :=
  ![((c.columns : ℚ) - 1) / 2, ((c.rows : ℚ) - 1) / 2]

/-- The `rotation` property: it returns the Euler matrix as a plain numpy
ndarray (note the trailing `.as_matrix()` in the source). -/
def CArm.rotation (c : CArm) : Mat3 :=
  euler_xyz_neg c.cosAlpha c.sinAlpha c.cosBeta c.sinBeta

/-- `source_pt`, as set by `rotate(alpha, beta)` during `__init__`:
`rotation @ init_source_pt`. -/
def CArm.source_pt (c : CArm) : Vec3 := c.rotation.mulVec c.init_source_pt

/-- The `table_top_position_adjusted_source_pt` property. -/
def CArm.table_top_position_adjusted_source_pt (c : CArm) : Vec3 :=
  c.source_pt - c.table_top_position

/-- The `source_basis_vector_x` property: `rotation @ init_source_basis_vector_x`. -/
def CArm.source_basis_vector_x (c : CArm) : Vec3 :=
  c.rotation.mulVec init_source_basis_vector_x

/-- The `source_basis_vector_y` property. -/
def CArm.source_basis_vector_y (c : CArm) : Vec3 :=
  c.rotation.mulVec init_source_basis_vector_y

/-- The `source_basis_vector_z` property. -/
def CArm.source_basis_vector_z (c : CArm) : Vec3 :=
  c.rotation.mulVec init_source_basis_vector_z

/-- The `detector_size` property: `[rows * spacing0, columns * spacing1]`. -/
def CArm.detector_size (c : CArm) : Vec2 :=
  ![(c.rows : ℚ) * c.imager_pixel_spacing 0,
    (c.columns : ℚ) * c.imager_pixel_spacing 1]

/-- The `intrinsic_matrix` property. -/
def CArm.intrinsic_matrix (c : CArm) : Mat3 :=
  create_intrinsic_matrix c.sid c.imager_pixel_spacing c.detector_center_pt_2d

/-- The `detector_center_pt_3d` property:
`table_top_position_adjusted_source_pt + sid * source_basis_vector_z`. -/
def CArm.detector_center_pt_3d (c : CArm) : Vec3 :=
  c.table_top_position_adjusted_source_pt + c.sid • c.source_basis_vector_z

/-- The `image_origin` property:
`detector_center_pt_3d - source_basis_vector_x * detector_size[0] / 2
 - source_basis_vector_y * detector_size[1] / 2`. -/
def CArm.image_origin (c : CArm) : Vec3 :=
  c.detector_center_pt_3d - (c.detector_size 0 / 2) • c.source_basis_vector_x
    - (c.detector_size 1 / 2) • c.source_basis_vector_y

/-- Runtime value categories that flow through rotation-typed code in carm.py:
either a plain numpy ndarray or a `scipy.spatial.transform.Rotation` object.
Attribute access on them is dispatched dynamically. -/
inductive PyRotValue where
  | ndarray (m : Mat3)
  | rotationObj (m : Mat3)
  deriving DecidableEq

/-- The `.inv()` method call: `Rotation` objects have it (rotation inverse);
numpy ndarrays have no `inv` attribute, so the call raises `AttributeError`. -/
def PyRotValue.inv : PyRotValue → Except PyError PyRotValue
  | .rotationObj m => .ok (.rotationObj (inv3 m))
  | .ndarray _ => .error (.attributeError "inv")

/-- The `.as_matrix()` method call, likewise only defined on `Rotation`. -/
def PyRotValue.as_matrix : PyRotValue → Except PyError Mat3
  | .rotationObj m => .ok m
  | .ndarray _ => .error (.attributeError "as_matrix")

/-- The runtime value of the `rotation` property: the source ends it with
`.as_matrix()`, so the value is a plain ndarray. -/
def CArm.rotation_value (c : CArm) : PyRotValue := .ndarray c.rotation

/-- `[R | T]`: a 3x3 matrix with a fourth column appended. -/
def concat_R_T (R : Mat3) (T : Vec3) : Matrix (Fin 3) (Fin 4) ℚ :=
  Matrix.of fun i j => if h : (j : ℕ) < 3 then R i ⟨j, h⟩ else T i

/-- The `extrinsic_matrix` property:
`R = self.rotation.inv().as_matrix()` followed by
`T = R @ -table_top_position_adjusted_source_pt` and `[R | T]`.
Since `rotation` is an ndarray, the `.inv()` attribute access is the first
evaluation step and raises. -/
def CArm.extrinsic_matrix (c : CArm) : Except PyError (Matrix (Fin 3) (Fin 4) ℚ) := do
  let Ri ← c.rotation_value.inv
  let R ← Ri.as_matrix
  let T := R.mulVec (-c.table_top_position_adjusted_source_pt)
  .ok (concat_R_T R T)

/-- The `projection_matrix` property: `intrinsic_matrix @ extrinsic_matrix`. -/
def CArm.projection_matrix (c : CArm) : Except PyError (Matrix (Fin 3) (Fin 4) ℚ) := do
  let E ← c.extrinsic_matrix
  .ok (c.intrinsic_matrix * E)

/-- `capture(obj)` with a point cloud supplied:
`camera_to_image(world_to_camera(obj, adjusted_source, np.linalg.inv(rotation)), K)`. -/
def CArm.capture (c : CArm) (obj : List Vec3) : List Vec2 :=
  camera_to_image
    (world_to_camera obj c.table_top_position_adjusted_source_pt (inv3 c.rotation))
    c.intrinsic_matrix

/-- `image_to_world(pts_2d)`:
`camera_to_world(image_to_camera(pts_2d, K, sid), adjusted_source, rotation)`. -/
def CArm.image_to_world (c : CArm) (pts_2d : List Vec2) : List Vec3 :=
  camera_to_world
    (image_to_camera pts_2d c.intrinsic_matrix c.sid)
    c.table_top_position_adjusted_source_pt
    c.rotation

/-- Claim C1 evaluation: for every `CArm` state, accessing `extrinsic_matrix`
(and hence `projection_matrix`) raises `AttributeError`, because the
`rotation` property returns a plain ndarray (it already applied
`.as_matrix()`) while `extrinsic_matrix` still calls the scipy `Rotation`
method `.inv()` on it.  The spec-mandated value `K @ [R|T]` is never
produced. -/
theorem C1_extrinsic_matrix_raises (c : CArm) :
    c.extrinsic_matrix = .error (.attributeError "inv") ∧
    c.projection_matrix = .error (.attributeError "inv") :=
  ⟨rfl, rfl⟩

/-- The GantryModel fixture of the spec: alpha = 0, beta = 0 (cosine 1,
sine 0), SID = 1000, SOD = 750, pixel spacing [0.2, 0.2], 512 rows and
columns, zero table offset, SISOD defaulted (`None`). -/
def fixtureCArm : CArm :=
  CArm.make 1 0 1 0 1000 750 ![1/5, 1/5] 512 512 ![0, 0, 0] none

set_option maxRecDepth 4000 in
/-- Claim C5: for the fixture, the rotation matrix is the identity, the
source point is `(0, 0, -750)`, and both components of the image origin
equal `-(rows * spacing) / 2 = -51.2`. -/
theorem C5_fixture_geometry :
    fixtureCArm.rotation = 1 ∧
    fixtureCArm.source_pt = ![0, 0, -750] ∧
    fixtureCArm.image_origin 0 = -((512 : ℚ) * (1/5)) / 2 ∧
    fixtureCArm.image_origin 1 = -((512 : ℚ) * (1/5)) / 2 := by
  refine ⟨?_, ?_, ?_, ?_⟩ <;> with_unfolding_all decide

/-! ### CArmLPSAdapter (carm.py) -/

/-- The `ILA_TO_LPS` class attribute:
`TransformationMatrix.get_coordinate_transform_matrix(ILA, LPS)`. -/
def ILA_TO_LPS : Mat3 :=
  match TransformationMatrix.get_coordinate_transform_matrix .ILA .LPS with
  | .ok m => m
  | .error _ => 1

/-- `CArmLPSAdapter`: wraps a `CArm` (holding it by reference). -/
structure CArmLPSAdapter where
  carm : CArm
  deriving DecidableEq

/-- numpy `M @ P` for a 3x3 matrix `M` and an (N,3) array `P` (given as the
list of its N rows): matmul contracts the columns of `M` against the rows of
`P`, so the product is defined only when N = 3 — in which case it transforms
the COLUMNS of `P` — and raises a shape `ValueError` otherwise. -/
def npMatmul33 (M : Mat3) (P : List Vec3) : Except PyError (List Vec3) :=
  if h : P.length = 3 then
    let B : Mat3 := Matrix.of fun i j => P.get (Fin.cast h.symm i) j
    .ok (List.ofFn fun i : Fin 3 => fun j => (M * B) i j)
  else .error (.valueError "matmul dimension mismatch")

/-- `CArmLPSAdapter.LPS_to_ILA`: `np.linalg.inv(self.ILA_TO_LPS) @ points`. -/
def CArmLPSAdapter.LPS_to_ILA (_a : CArmLPSAdapter) (points : List Vec3) :
    Except PyError (List Vec3) :=
  npMatmul33 (inv3 ILA_TO_LPS) points

/-- `CArmLPSAdapter.ILA_to_LPS`: `self.ILA_TO_LPS @ points`. -/
def CArmLPSAdapter.ILA_to_LPS (_a : CArmLPSAdapter) (points : List Vec3) :
    Except PyError (List Vec3) :=
  npMatmul33 ILA_TO_LPS points

/-- `CArmLPSAdapter.capture(obj)` with a point cloud supplied: converts the
object LPS→ILA and delegates to the wrapped `CArm.capture`. -/
def CArmLPSAdapter.capture (a : CArmLPSAdapter) (obj : List Vec3) :
    Except PyError (List Vec2) := do
  let obj_ila ← a.LPS_to_ILA obj
  .ok (a.carm.capture obj_ila)

/-- Adapter `rotation` property: `ILA_TO_LPS @ carm.rotation` (a 3x3 matrix
product, yielding an ndarray). -/
def CArmLPSAdapter.rotation (a : CArmLPSAdapter) : Mat3 :=
  ILA_TO_LPS * a.carm.rotation

/-- Adapter `source_pt` property:
`ILA_TO_LPS @ carm.table_top_position_adjusted_source_pt`. -/
def CArmLPSAdapter.source_pt (a : CArmLPSAdapter) : Vec3 :=
  ILA_TO_LPS.mulVec a.carm.table_top_position_adjusted_source_pt

/-- Adapter `detector_center_pt_3d` property. -/
def CArmLPSAdapter.detector_center_pt_3d (a : CArmLPSAdapter) : Vec3 :=
  ILA_TO_LPS.mulVec a.carm.detector_center_pt_3d

/-- Adapter `source_basis_vector_x` property. -/
def CArmLPSAdapter.source_basis_vector_x (a : CArmLPSAdapter) : Vec3 :=
  ILA_TO_LPS.mulVec a.carm.source_basis_vector_x

/-- Adapter `source_basis_vector_y` property. -/
def CArmLPSAdapter.source_basis_vector_y (a : CArmLPSAdapter) : Vec3 :=
  ILA_TO_LPS.mulVec a.carm.source_basis_vector_y

/-- Adapter `source_basis_vector_z` property. -/
def CArmLPSAdapter.source_basis_vector_z (a : CArmLPSAdapter) : Vec3 :=
  ILA_TO_LPS.mulVec a.carm.source_basis_vector_z

/-- Adapter `image_origin` property: `ILA_TO_LPS @ carm.image_origin`. -/
def CArmLPSAdapter.image_origin (a : CArmLPSAdapter) : Vec3 :=
  ILA_TO_LPS.mulVec a.carm.image_origin

/-- Adapter `intrinsic_matrix` property: pass-through. -/
def CArmLPSAdapter.intrinsic_matrix (a : CArmLPSAdapter) : Mat3 :=
  a.carm.intrinsic_matrix

/-- Python attribute resolution for vector-valued attributes of
`CArmLPSAdapter`: `self.<name>` succeeds exactly for the properties the class
defines; any other name raises `AttributeError`.  (Listed are the vector
properties of the class.) -/
def CArmLPSAdapter.vecAttr (a : CArmLPSAdapter) (name : String) :
    Except PyError Vec3 :=
  if name = "source_pt" then .ok a.source_pt
  else if name = "detector_center_pt_3d" then .ok a.detector_center_pt_3d
  else if name = "source_basis_vector_x" then .ok a.source_basis_vector_x
  else if name = "source_basis_vector_y" then .ok a.source_basis_vector_y
  else if name = "source_basis_vector_z" then .ok a.source_basis_vector_z
  else if name = "image_origin" then .ok a.image_origin
  else .error (.attributeError name)

/-- Adapter `extrinsic_matrix` property: `self.rotation` is an ndarray (a
matrix product), so the `isinstance(rotation_matrix, Rotation)` test fails
and `R = np.linalg.inv(rotation_matrix)`; then the source reads
`self.source_pt_lps`, an attribute the class never defines (its property is
named `source_pt`), so the access raises `AttributeError`. -/
def CArmLPSAdapter.extrinsic_matrix (a : CArmLPSAdapter) :
    Except PyError (Matrix (Fin 3) (Fin 4) ℚ) := do
  let R := inv3 a.rotation
  let sp ← a.vecAttr "source_pt_lps"
  .ok (concat_R_T R (R.mulVec (-sp)))

/-- Adapter `projection_matrix` property: `intrinsic_matrix @ extrinsic_matrix`. -/
def CArmLPSAdapter.projection_matrix (a : CArmLPSAdapter) :
    Except PyError (Matrix (Fin 3) (Fin 4) ℚ) := do
  let E ← a.extrinsic_matrix
  .ok (a.intrinsic_matrix * E)

/-- `CArmLPSAdapter.image_to_world`: back-projects through the wrapped model
and then left-multiplies the whole (N,3) result array by `ILA_TO_LPS`. -/
def CArmLPSAdapter.image_to_world (a : CArmLPSAdapter) (pts_2d : List Vec2) :
    Except PyError (List Vec3) :=
  npMatmul33 ILA_TO_LPS (a.carm.image_to_world pts_2d)

/-- Claim C2 evaluation: for every adapter, accessing `extrinsic_matrix`
(hence also `projection_matrix`) raises `AttributeError`: the body reads the
undefined attribute `source_pt_lps` (the class defines `source_pt`).  The
claimed well-definedness and the formula `[R|T]` are never realized. -/
theorem C2_adapter_extrinsic_matrix_raises (a : CArmLPSAdapter) :
    a.extrinsic_matrix = .error (.attributeError "source_pt_lps") ∧
    a.projection_matrix = .error (.attributeError "source_pt_lps") := by
  constructor <;> with_unfolding_all rfl

def fixtureAdapter : CArmLPSAdapter := ⟨fixtureCArm⟩

/-- A single-row (1,3) LPS point set. -/
def lpsSinglePoint : List Vec3 := [![1, 2, 3]]

/-- A (3,3) LPS point set (three row points). -/
def lpsThreePoints : List Vec3 := [![1, 2, 3], ![4, 5, 6], ![7, 8, 10]]

set_option maxRecDepth 10000 in
/-- Claim C7 evaluation: `adapter.capture` does not perform the claimed
row-pointwise LPS→ILA conversion.  `LPS_to_ILA` computes
`np.linalg.inv(ILA_TO_LPS) @ points` on the raw (N,3) array, which (i) is a
numpy shape error for N = 1, and (ii) for N = 3 transforms the columns of
the array rather than its row points, so the result differs from
`gantry.capture` applied to the pointwise-converted set. -/
theorem C7_capture_not_pointwise_conversion :
    fixtureAdapter.capture lpsSinglePoint =
      .error (.valueError "matmul dimension mismatch") ∧
    fixtureAdapter.capture lpsThreePoints ≠
      .ok (fixtureCArm.capture
        (lpsThreePoints.map fun p => (inv3 ILA_TO_LPS).mulVec p)) := by
  constructor <;> with_unfolding_all decide

theorem det3_rotAboutX (c s : ℚ) : det3 (rotAboutX c s) = c ^ 2 + s ^ 2 := by
  simp [det3, rotAboutX]
  ring

theorem det3_rotAboutY (c s : ℚ) : det3 (rotAboutY c s) = c ^ 2 + s ^ 2 := by
  simp [det3, rotAboutY]
  ring

theorem det3_rotation (c : CArm)
    (ha : c.cosAlpha ^ 2 + c.sinAlpha ^ 2 = 1)
    (hb : c.cosBeta ^ 2 + c.sinBeta ^ 2 = 1) :
    det3 c.rotation = 1 := by
  rw [CArm.rotation, euler_xyz_neg, det3_mul, det3_rotAboutX, det3_rotAboutY]
  linear_combination (c.cosAlpha ^ 2 + c.sinAlpha ^ 2) * hb + ha

theorem det3_intrinsic (c : CArm) :
    det3 c.intrinsic_matrix =
      (c.sid / c.imager_pixel_spacing 0) * (c.sid / c.imager_pixel_spacing 1) := by
  simp only [CArm.intrinsic_matrix, create_intrinsic_matrix, det3,
    Matrix.cons_val_zero, Matrix.cons_val_one, Matrix.cons_val_two,
    Matrix.head_cons, Matrix.tail_cons, Matrix.head_fin_const, Matrix.cons_val',
    Matrix.empty_val', Matrix.cons_val_fin_one, Matrix.of_apply]
  ring

/-- Claim C10: back-projection followed by projection is the identity on
image points: `capture(image_to_world(p)) = p` exactly, for every gantry
state with positive SID and nonzero pixel spacing.  The cosine/sine pairs
representing the two gantry angles satisfy the Pythagorean identity (as they
do for every state reachable from real angles), which is what makes the
rotation matrix invertible. -/
theorem C10_capture_image_to_world_roundtrip (c : CArm) (pts : List Vec2)
    (hsid : 0 < c.sid)
    (hx : c.imager_pixel_spacing 0 ≠ 0) (hy : c.imager_pixel_spacing 1 ≠ 0)
    (ha : c.cosAlpha ^ 2 + c.sinAlpha ^ 2 = 1)
    (hb : c.cosBeta ^ 2 + c.sinBeta ^ 2 = 1) :
    c.capture (c.image_to_world pts) = pts := by
  have hdetR : det3 c.rotation ≠ 0 := by
    rw [det3_rotation c ha hb]
    exact one_ne_zero
  have hKdet : det3 c.intrinsic_matrix ≠ 0 := by
    rw [det3_intrinsic]
    exact mul_ne_zero (div_ne_zero hsid.ne' hx) (div_ne_zero hsid.ne' hy)
  have hrow2 : ∀ w : Vec3, c.intrinsic_matrix.mulVec w 2 = w 2 := by
    intro w
    simp only [CArm.intrinsic_matrix, create_intrinsic_matrix, Matrix.mulVec,
      Matrix.dotProduct, Fin.sum_univ_three,
      Matrix.cons_val_zero, Matrix.cons_val_one, Matrix.cons_val_two,
      Matrix.head_cons, Matrix.tail_cons, Matrix.head_fin_const, Matrix.cons_val',
      Matrix.empty_val', Matrix.cons_val_fin_one, Matrix.of_apply]
    ring
  unfold CArm.capture CArm.image_to_world camera_to_image world_to_camera
    camera_to_world image_to_camera
  rw [List.map_map, List.map_map, List.map_map]
  conv_rhs => rw [← List.map_id pts]
  refine List.map_congr_left fun p _ => ?_
  simp only [Function.comp_apply, id_eq]
  have hKinv :
      c.intrinsic_matrix.mulVec
        ((inv3 c.intrinsic_matrix).mulVec (to_homogeneous p)) = to_homogeneous p := by
    rw [Matrix.mulVec_mulVec, mul_inv3 hKdet, Matrix.one_mulVec]
  have hu2 : (inv3 c.intrinsic_matrix).mulVec (to_homogeneous p) 2 = 1 := by
    have h3 := hrow2 ((inv3 c.intrinsic_matrix).mulVec (to_homogeneous p))
    rw [hKinv] at h3
    rw [← h3]
    rfl
  rw [add_sub_cancel_right,
    Matrix.mulVec_mulVec _ (inv3 c.rotation) c.rotation,
    inv3_mul hdetR, Matrix.one_mulVec, Matrix.mulVec_smul, hKinv]
  have hu2' : Matrix.mulVec (inv3 c.intrinsic_matrix) ![p 0, p 1, 1] 2 = 1 := hu2
  funext i
  fin_cases i <;>
    simp [to_homogeneous, Pi.smul_apply, smul_eq_mul, hu2',
      mul_div_cancel_left₀ _ hsid.ne']

set_option maxRecDepth 4000 in
/-- Witness for C10: the fixture state satisfies all hypotheses, and the
round trip holds on the concrete image point (1, 2). -/
theorem C10_capture_image_to_world_roundtrip_witness :
    fixtureCArm.capture (fixtureCArm.image_to_world [![1, 2]]) = [![1, 2]] :=
  C10_capture_image_to_world_roundtrip fixtureCArm [![1, 2]]
    (by with_unfolding_all decide) (by with_unfolding_all decide)
    (by with_unfolding_all decide) (by with_unfolding_all decide)
    (by with_unfolding_all decide)

/-! ### PatientCoordinates (coordinate.py) -/

/-- numpy rowwise addition of two (N,3)/(M,3) arrays with broadcasting: equal
lengths add elementwise, a single row broadcasts, anything else raises a
shape `ValueError`. -/
def npAddRows (xs ys : List Vec3) : Except PyError (List Vec3) :=
  if xs.length = ys.length then .ok (List.zipWith (· + ·) xs ys)
  else
    match xs, ys with
    | [x], _ => .ok (ys.map fun b => x + b)
    | _, [y] => .ok (xs.map fun a => a + y)
    | _, _ => .error (.valueError "operands could not be broadcast together")

/-- numpy rowwise subtraction, same shape rules as `npAddRows`. -/
def npSubRows (xs ys : List Vec3) : Except PyError (List Vec3) :=
  if xs.length = ys.length then .ok (List.zipWith (· - ·) xs ys)
  else
    match xs, ys with
    | [x], _ => .ok (ys.map fun b => x - b)
    | _, [y] => .ok (xs.map fun a => a - y)
    | _, _ => .error (.valueError "operands could not be broadcast together")

/-- `PatientCoordinates`: an (N,3) point set tagged with its coordinate
system. -/
structure PatientCoordinates where
  coords : List Vec3
  coord_system : CoordinateSystem
  deriving DecidableEq

/-- `PatientCoordinates.__add__` for a `PatientCoordinates` operand: raises
`ValueError` when the coordinate systems differ, else adds the arrays and
keeps the tag. -/
def PatientCoordinates.add (p other : PatientCoordinates) :
    Except PyError PatientCoordinates :=
  if p.coord_system ≠ other.coord_system then
    .error (.valueError "Cannot add coordinates in different systems")
  else do
    let cs ← npAddRows p.coords other.coords
    .ok ⟨cs, p.coord_system⟩

/-- `PatientCoordinates.__sub__` for a `PatientCoordinates` operand. -/
def PatientCoordinates.sub (p other : PatientCoordinates) :
    Except PyError PatientCoordinates :=
  if p.coord_system ≠ other.coord_system then
    .error (.valueError "Cannot subtract coordinates in different systems")
  else do
    let cs ← npSubRows p.coords other.coords
    .ok ⟨cs, p.coord_system⟩

/-- Claim C9: tagged-point-set arithmetic is defined exactly for matching
coordinate-system tags: differing tags raise (regardless of shapes), and
matching tags give the componentwise sum/difference under the same tag
(stated for operands of equal length, the shape on which numpy addition is
the componentwise operation). -/
theorem C9_patient_coordinates_arithmetic (p q : PatientCoordinates) :
    (p.coord_system ≠ q.coord_system →
        p.add q = .error (.valueError "Cannot add coordinates in different systems") ∧
        p.sub q = .error (.valueError "Cannot subtract coordinates in different systems")) ∧
    (p.coord_system = q.coord_system → p.coords.length = q.coords.length →
        p.add q = .ok ⟨List.zipWith (· + ·) p.coords q.coords, p.coord_system⟩ ∧
        p.sub q = .ok ⟨List.zipWith (· - ·) p.coords q.coords, p.coord_system⟩) := by
  constructor
  · intro h
    constructor <;> simp [PatientCoordinates.add, PatientCoordinates.sub, h]
  · intro he hl
    constructor <;>
      simp [PatientCoordinates.add, PatientCoordinates.sub, npAddRows, npSubRows,
        he, hl] <;> rfl

/-- Witness for C9: both hypotheses are satisfiable — mixing LPS with RAS
raises, matching LPS tags add componentwise. -/
theorem C9_patient_coordinates_arithmetic_witness :
    (PatientCoordinates.mk [![1, 2, 3]] .LPS).add ⟨[![4, 5, 6]], .RAS⟩ =
      .error (.valueError "Cannot add coordinates in different systems") ∧
    (PatientCoordinates.mk [![1, 2, 3]] .LPS).add ⟨[![4, 5, 6]], .LPS⟩ =
      .ok ⟨List.zipWith (· + ·) [![1, 2, 3]] [![4, 5, 6]], .LPS⟩ :=
  ⟨((C9_patient_coordinates_arithmetic ⟨[![1, 2, 3]], .LPS⟩ ⟨[![4, 5, 6]], .RAS⟩).1
      (by with_unfolding_all decide)).1,
   ((C9_patient_coordinates_arithmetic ⟨[![1, 2, 3]], .LPS⟩ ⟨[![4, 5, 6]], .LPS⟩).2
      rfl rfl).1⟩

/-! ### BaseDicomHandler.spacing (dicom.py) -/

/-- Value of a DICOM decimal-string element that decodes to either a list of
floats (value multiplicity > 1) or a single float. -/
inductive PyFloatOrList where
  | flt (x : ℚ)
  | lst (xs : List ℚ)
  deriving DecidableEq

/-- Per-slice metadata surfaced by the `BaseDicomHandler` properties used by
the geometry code; `none` models an absent DICOM element
(`read_dicom_element_value` returns `None`). -/
structure BaseDicomHandler where
  pixel_spacing : Option PyFloatOrList
  spacing_between_slices : Option ℚ
  slice_thickness : Option ℚ
  slice_location : Option ℚ
  image_position_patient : Option (ℚ × ℚ × ℚ)
  deriving DecidableEq

/-- `BaseDicomHandler.spacing`: normalizes `pixel_spacing` to a two-element
list (a non-list value — including `None` — is duplicated), appends
spacing-between-slices if present, else slice thickness, and raises
`ValueError` when neither exists.  List entries are `Option ℚ` because a
missing `pixel_spacing` leaves literal `None`s in the Python list. -/
def BaseDicomHandler.spacing (d : BaseDicomHandler) :
    Except PyError (List (Option ℚ)) :=
  let ps : List (Option ℚ) :=
    match d.pixel_spacing with
    | some (.lst xs) => xs.map some
    | some (.flt x) => [some x, some x]
    | none => [none, none]
  match d.spacing_between_slices with
  | some s => .ok (ps ++ [some s])
  | none =>
    match d.slice_thickness with
    | some t => .ok (ps ++ [some t])
    | none => .error (.valueError "Spacing between slices is not defined")

/-- Claim C8: `spacing` is `[row_spacing, col_spacing, inter_slice]` with the
inter-slice entry taken from spacing-between-slices when present, else slice
thickness, and the access fails with the missing-spacing `ValueError` (never
a default value) when neither is available. -/
theorem C8_spacing_fallback_and_error (d : BaseDicomHandler) (r c : ℚ)
    (hps : d.pixel_spacing = some (.lst [r, c])) :
    (∀ s, d.spacing_between_slices = some s →
        d.spacing = .ok [some r, some c, some s]) ∧
    (∀ t, d.spacing_between_slices = none → d.slice_thickness = some t →
        d.spacing = .ok [some r, some c, some t]) ∧
    (d.spacing_between_slices = none → d.slice_thickness = none →
        d.spacing = .error (.valueError "Spacing between slices is not defined")) := by
  refine ⟨fun s hs => ?_, fun t hn ht => ?_, fun hn hm => ?_⟩
  · simp [BaseDicomHandler.spacing, hps, hs]
  · simp [BaseDicomHandler.spacing, hps, hn, ht]
  · simp [BaseDicomHandler.spacing, hps, hn, hm]

/-- Witness for C8: all three branches are realizable on concrete handlers
with pixel spacing `[0.5, 0.25]`. -/
theorem C8_spacing_fallback_and_error_witness :
    (BaseDicomHandler.mk (some (.lst [1/2, 1/4])) (some 3) none none none).spacing =
      .ok [some (1/2), some (1/4), some 3] ∧
    (BaseDicomHandler.mk (some (.lst [1/2, 1/4])) none (some 2) none none).spacing =
      .ok [some (1/2), some (1/4), some 2] ∧
    (BaseDicomHandler.mk (some (.lst [1/2, 1/4])) none none none none).spacing =
      .error (.valueError "Spacing between slices is not defined") :=
  ⟨(C8_spacing_fallback_and_error _ (1/2) (1/4) rfl).1 3 rfl,
   (C8_spacing_fallback_and_error _ (1/2) (1/4) rfl).2.1 2 rfl rfl,
   (C8_spacing_fallback_and_error _ (1/2) (1/4) rfl).2.2 rfl rfl⟩

/-! ### Triangulation (camera.py) — claim C4 -/

/-- A stand-in SVD solver (constant all-ones singular vector), used to
instantiate the abstracted `np.linalg.svd` step on a concrete call. -/
def constOnesSolver : (m k : ℕ) → Matrix (Fin m) (Fin k) ℚ → (Fin k → ℚ) :=
  fun _ _ _ _ => 1

/-- A concrete 3x4 projection matrix for the single-view call. -/
def oneViewMatrix : Matrix (Fin 3) (Fin 4) ℚ := !![1, 0, 0, 0; 0, 1, 0, 0; 0, 0, 1, 0]

/-- Counterexample to claim C4: a call with a single (projection matrix,
image point) pair — fewer than two views — does not fail with any error; it
returns a de-homogenized 3D point.  (The solver output is abstract, but the
control flow never inspects the view count, so the result is `.ok` for every
solver; here it is evaluated at a concrete one.) -/
theorem C4_counterexample_single_view_returns :
    triangulate_multi_views constOnesSolver [oneViewMatrix] [![5, 7]] =
      .ok ![1, 1, 1] := by
  with_unfolding_all decide

/-- Claim C4 as amended: `triangulate_multi_views` checks only that the two
input lists have equal length (`assert`); it has no minimum-view check, so a
call with fewer than 2 views does not raise an `UnderdeterminedSystem`-style
error but still returns a (mathematically underdetermined) de-homogenized
point built from the solver output. -/
theorem C4_no_minimum_view_check
    (svd_solver : (m k : ℕ) → Matrix (Fin m) (Fin k) ℚ → (Fin k → ℚ))
    (Ps : List (Matrix (Fin 3) (Fin 4) ℚ)) (pts : List Vec2)
    (hlen : Ps.length = pts.length) (hlt : Ps.length < 2) :
    ∃ v : Vec3, triangulate_multi_views svd_solver Ps pts = .ok v := by
  unfold triangulate_multi_views
  rw [if_pos hlen]
  exact ⟨_, rfl⟩

/-- Witness for C4's amended claim: the hypotheses hold for the concrete
single-view call (equal lengths, one view). -/
theorem C4_no_minimum_view_check_witness :
    ([oneViewMatrix].length = [(![5, 7] : Vec2)].length ∧ [oneViewMatrix].length < 2) ∧
    ∃ v : Vec3, triangulate_multi_views constOnesSolver [oneViewMatrix] [![5, 7]] = .ok v :=
  ⟨⟨rfl, by decide⟩,
   C4_no_minimum_view_check constOnesSolver [oneViewMatrix] [![5, 7]] rfl (by decide)⟩

/-! ### VolumeDicomHandler slice sorting and interpolation (dicom.py) -/

/-- The per-dataset sort position computed by `_sort_dicom_datasets`: slice
location if present, else the third component of image position, else the
original order index `i`. -/
def sortPosition (dataset : BaseDicomHandler) (i : ℕ) : ℚ :=
  match dataset.slice_location with
  | some s => s
  | none =>
    match dataset.image_position_patient with
    | some p => p.2.2
    | none => (i : ℚ)

/-- The `position_info` list of `(position, i)` pairs built by
`_sort_dicom_datasets`; the dataset itself is carried next to its index so
that the final `dicom_datasets[idx]` lookup is by construction. -/
def position_info (dicom_datasets : List BaseDicomHandler) :
    List (ℚ × ℕ × BaseDicomHandler) :=
  dicom_datasets.enum.map fun x => (sortPosition x.2 x.1, x.1, x.2)

/-- The comparison of `position_info.sort(key=lambda x: x[0])`. -/
def posLe (a b : ℚ × ℕ × BaseDicomHandler) : Prop := a.1 ≤ b.1

instance : DecidableRel posLe := fun a b => inferInstanceAs (Decidable (a.1 ≤ b.1))

instance : IsTotal (ℚ × ℕ × BaseDicomHandler) posLe := ⟨fun a b => le_total a.1 b.1⟩

instance : IsTrans (ℚ × ℕ × BaseDicomHandler) posLe := ⟨fun _ _ _ h1 h2 => le_trans h1 h2⟩

/-- `_sort_dicom_datasets`: Python `list.sort` is a stable sort by the
position key; it is modelled by insertion sort, which is also stable (stable
sorts of the same keyed list coincide). -/
def sort_dicom_datasets (dicom_datasets : List BaseDicomHandler) :
    List BaseDicomHandler :=
  ((position_info dicom_datasets).insertionSort posLe).map fun x => x.2.2

/-- `VolumeDicomHandler` state: the sorted series. -/
structure VolumeDicomHandler where
  dcm_series : List BaseDicomHandler
  deriving DecidableEq

/-- `VolumeDicomHandler.__init__` from a list of datasets: sorts the series. -/
def VolumeDicomHandler.ofDatasets (dcms : List BaseDicomHandler) :
    VolumeDicomHandler :=
  ⟨sort_dicom_datasets dcms⟩

/-- `int(math.modf(q)[1])`: truncation toward zero. -/
def pyTrunc (q : ℚ) : ℤ := if 0 ≤ q then ⌊q⌋ else ⌈q⌉

/-- Python list indexing `l[k]`: negative indices count from the end;
out-of-range access raises `IndexError`. -/
def pyGet {α : Type} (l : List α) (k : ℤ) : Except PyError α :=
  let j := if k < 0 then (l.length : ℤ) + k else k
  if 0 ≤ j then
    match l.get? j.toNat with
    | some x => .ok x
    | none => .error .indexError
  else .error .indexError

/-- `VolumeDicomHandler.get_image_position_patient(idx)` on the numeric
path: split `idx` into integer part (truncated toward zero, as `math.modf`
does) and fractional part; a positive fractional part linearly interpolates
between the neighbouring slices (`x1 + (x2 - x1) * frac`), unpacking their
image positions (raising `TypeError` on a missing one, as tuple unpacking of
`None` does); otherwise the slice position (possibly `None`) is returned
directly. -/
def VolumeDicomHandler.get_image_position_patient (h : VolumeDicomHandler)
    (idx : ℚ) : Except PyError (Option (ℚ × ℚ × ℚ)) :=
  if 0 < idx - (pyTrunc idx : ℚ) then do
    let d1 ← pyGet h.dcm_series (pyTrunc idx)
    let d2 ← pyGet h.dcm_series (pyTrunc idx + 1)
    match d1.image_position_patient, d2.image_position_patient with
    | some p, some q =>
        .ok (some (p.1 + (q.1 - p.1) * (idx - (pyTrunc idx : ℚ)),
                   p.2.1 + (q.2.1 - p.2.1) * (idx - (pyTrunc idx : ℚ)),
                   p.2.2 + (q.2.2 - p.2.2) * (idx - (pyTrunc idx : ℚ))))
    | _, _ => .error (.typeError "cannot unpack NoneType")
  else do
    let d ← pyGet h.dcm_series (pyTrunc idx)
    .ok d.image_position_patient

/-- A slice record carrying only a slice location, as in the spec's sorting
example. -/
def exSlice (x : ℚ) : BaseDicomHandler := ⟨none, none, none, some x, none⟩

/-- Claim C6: slice sorting is a stable ascending sort by the position key
(slice location, else z of image position, else original index) — the output
is a permutation of the input, the sorted key list is non-decreasing, tied
pairs keep their original order, and the spec's `[30, 10, 20]` example sorts
to `[10, 20, 30]`; and a fractional index `n + f` (0 < f < 1) interpolates
the image position as `position[n] + f * (position[n+1] - position[n])`
componentwise, so `f = 1/2` yields the arithmetic mean. -/
theorem C6_sort_and_fractional_position :
    (∀ l : List BaseDicomHandler, (sort_dicom_datasets l).Perm l) ∧
    (∀ l : List BaseDicomHandler,
        List.Sorted posLe ((position_info l).insertionSort posLe)) ∧
    (∀ (l : List BaseDicomHandler) (a b : ℚ × ℕ × BaseDicomHandler),
        a.1 = b.1 → [a, b].Sublist (position_info l) →
        [a, b].Sublist ((position_info l).insertionSort posLe)) ∧
    sort_dicom_datasets [exSlice 30, exSlice 10, exSlice 20] =
      [exSlice 10, exSlice 20, exSlice 30] ∧
    (∀ (h : VolumeDicomHandler) (n : ℕ) (f : ℚ) (d1 d2 : BaseDicomHandler)
        (p q : ℚ × ℚ × ℚ), 0 < f → f < 1 →
        pyGet h.dcm_series (n : ℤ) = .ok d1 →
        d1.image_position_patient = some p →
        pyGet h.dcm_series ((n : ℤ) + 1) = .ok d2 →
        d2.image_position_patient = some q →
        h.get_image_position_patient ((n : ℚ) + f) =
          .ok (some (p.1 + f * (q.1 - p.1), p.2.1 + f * (q.2.1 - p.2.1),
                     p.2.2 + f * (q.2.2 - p.2.2))) ∧
        (f = 1/2 →
          h.get_image_position_patient ((n : ℚ) + f) =
            .ok (some ((p.1 + q.1) / 2, (p.2.1 + q.2.1) / 2,
                       (p.2.2 + q.2.2) / 2)))) := by
  refine ⟨?_, ?_, ?_, ?_, ?_⟩
  · intro l
    have hmap : (position_info l).map (fun x => x.2.2) = l := by
      unfold position_info
      rw [List.map_map]
      have hc : ((fun x : ℚ × ℕ × BaseDicomHandler => x.2.2) ∘
          (fun x : ℕ × BaseDicomHandler => (sortPosition x.2 x.1, x.1, x.2)))
          = Prod.snd := rfl
      rw [hc]
      exact List.enum_map_snd l
    have hperm := (List.perm_insertionSort posLe (position_info l)).map
      (fun x : ℚ × ℕ × BaseDicomHandler => x.2.2)
    rw [hmap] at hperm
    exact hperm
  · intro l
    exact List.sorted_insertionSort posLe (position_info l)
  · intro l a b hab hsub
    exact List.pair_sublist_insertionSort (le_of_eq hab) hsub
  · with_unfolding_all decide
  · intro h n f d1 d2 p q hf0 hf1 h1 hp h2 hq
    have htr : pyTrunc ((n : ℚ) + f) = (n : ℤ) := by
      unfold pyTrunc
      rw [if_pos (by positivity)]
      have hn : ((n : ℚ)) = (((n : ℤ) : ℚ)) := by push_cast; ring
      rw [hn, Int.floor_int_add, Int.floor_eq_zero_iff.mpr ⟨hf0.le, hf1⟩, add_zero]
    have hfr : ((n : ℚ) + f) - ((pyTrunc ((n : ℚ) + f) : ℤ) : ℚ) = f := by
      rw [htr]; push_cast; ring
    have hmain : h.get_image_position_patient ((n : ℚ) + f) =
        .ok (some (p.1 + f * (q.1 - p.1), p.2.1 + f * (q.2.1 - p.2.1),
                   p.2.2 + f * (q.2.2 - p.2.2))) := by
      unfold VolumeDicomHandler.get_image_position_patient
      rw [htr] at hfr ⊢
      rw [hfr, if_pos hf0, h1, h2]
      show (match d1.image_position_patient, d2.image_position_patient with
        | some p, some q =>
            Except.ok (some (p.1 + (q.1 - p.1) * f,
                       p.2.1 + (q.2.1 - p.2.1) * f,
                       p.2.2 + (q.2.2 - p.2.2) * f))
        | _, _ =>
            Except.error (PyError.typeError "cannot unpack NoneType")) = _
      rw [hp, hq]
      refine congrArg _ (congrArg _ ?_)
      refine Prod.ext (by ring) (Prod.ext (by ring) (by ring))
    refine ⟨hmain, fun hhalf => ?_⟩
    rw [hmain, hhalf]
    refine congrArg _ (congrArg _ ?_)
    refine Prod.ext (by ring) (Prod.ext (by ring) (by ring))

/-- A slice record carrying only an image position. -/
def ippSlice (v : ℚ × ℚ × ℚ) : BaseDicomHandler := ⟨none, none, none, none, some v⟩

/-- Witness for C6: the hypotheses are satisfiable — a tied pair (equal
positions 5 at original indices 0 and 1) stays in order after sorting, and
fractional index 0.5 between slices with image positions (0,0,10) and
(2,4,20) yields their arithmetic mean (1,2,15). -/
theorem C6_sort_and_fractional_position_witness :
    [((5 : ℚ), 0, exSlice 5), ((5 : ℚ), 1, exSlice 5)].Sublist
      ((position_info [exSlice 5, exSlice 5]).insertionSort posLe) ∧
    (VolumeDicomHandler.mk [ippSlice (0, 0, 10), ippSlice (2, 4, 20)]).get_image_position_patient
        (((0 : ℕ) : ℚ) + 1/2) =
      .ok (some ((0 + 2) / 2, (0 + 4) / 2, (10 + 20) / 2)) :=
  ⟨C6_sort_and_fractional_position.2.2.1 [exSlice 5, exSlice 5]
      ((5 : ℚ), 0, exSlice 5) ((5 : ℚ), 1, exSlice 5) rfl (List.Sublist.refl _),
   (C6_sort_and_fractional_position.2.2.2.2
      ⟨[ippSlice (0, 0, 10), ippSlice (2, 4, 20)]⟩ 0 (1/2)
      (ippSlice (0, 0, 10)) (ippSlice (2, 4, 20)) (0, 0, 10) (2, 4, 20)
      (by norm_num) (by norm_num)
      (by with_unfolding_all rfl) rfl
      (by with_unfolding_all rfl) rfl).2 rfl⟩
